import Mathlib

/-!
Shallow embedding of the pdverse-v3 python backend (src/python-backend):
the retrieval/scoring engine of search.py, the chunker and
entity/relationship extractor of pdf_processing.py, and the
delete/dispatch endpoints of api.py, together with theorems checking the
frozen specification claims against these definitions.

Conventions of the embedding:
* Python floats are modelled as rationals (ℚ).
* Database ids (UUIDs) are modelled as strings; `uuid.UUID(s)` on a
  string argument is modelled as the identity on well-formed ids.
* External collaborators (PostgreSQL tsquery matching and ranking, the
  pgvector cosine-distance operator, the sentence-transformer embedder,
  the spacy NER model, the tiktoken tokenizer) are parameters of the
  functions that consume them, mirroring their black-box use in the
  source.
* Python strings are manipulated through their character lists so that
  every operation is a structural recursion.
-/

namespace PdVerse

/-- Whitespace recognised by python's `str.split()` / `str.strip()`. -/
def isWs (c : Char) : Bool :=
  c = ' ' || c = '\t' || c = '\n' || c = '\r'

/-- Helper for `pySplit`: first argument accumulates the current word
(in reverse), producing the list of maximal non-whitespace runs. -/
def pySplitAux : List Char → List Char → List String
  | acc, [] => if acc.isEmpty then [] else [String.mk acc.reverse]
  | acc, c :: cs =>
    if isWs c then
      if acc.isEmpty then pySplitAux [] cs
      else String.mk acc.reverse :: pySplitAux [] cs
    else pySplitAux (c :: acc) cs

/-- Python `s.split()`: split on runs of whitespace, dropping empties. -/
def pySplit (s : String) : List String :=
  pySplitAux [] s.data

/-- Python truthiness of `s.strip()`: `true` iff every character is
whitespace (so `not query.strip()` holds). -/
def pyBlank (s : String) : Bool :=
  s.data.all isWs

/-- Python `s.lower()`. -/
def pyLower (s : String) : String :=
  String.mk (s.data.map Char.toLower)

/-- Character-list substring test (python's `needle in haystack`). -/
def subListOf : List Char → List Char → Bool
  | pat, [] => pat.isEmpty
  | pat, c :: cs => pat.isPrefixOf (c :: cs) || subListOf pat cs

/-- Python `needle in haystack` on strings (substring containment). -/
def strContains (haystack needle : String) : Bool :=
  subListOf needle.data haystack.data

/-- All ordered pairs `(l_i, l_j)` with `i < j`, in the order produced by
the two nested index loops of `extract_entities`. -/
def pairsOf {α : Type} : List α → List (α × α)
  | [] => []
  | x :: xs => xs.map (fun y => (x, y)) ++ pairsOf xs

/-- Insert an element into a list sorted by descending key, keeping the
descending order (models one step of sorting by a score). -/
def insertByDesc {α : Type} (key : α → ℚ) (x : α) : List α → List α
  | [] => [x]
  | y :: ys => if key y < key x then x :: y :: ys else y :: insertByDesc key x ys

/-- Sort a list by descending key (models python `list.sort` with
`reverse=True` and SQL `ORDER BY ... DESC`; ties in unspecified order). -/
def sortByDesc {α : Type} (key : α → ℚ) (l : List α) : List α :=
  l.foldr (insertByDesc key) []

theorem insertByDesc_perm {α : Type} (key : α → ℚ) (x : α) (l : List α) :
    List.Perm (insertByDesc key x l) (x :: l) := by
  induction l with
  | nil => simp [insertByDesc]
  | cons y ys ih =>
    simp only [insertByDesc]
    by_cases h : key y < key x
    · simp [h]
    · simp only [h, if_false]
      exact (ih.cons y).trans (List.Perm.swap x y ys)

theorem sortByDesc_perm {α : Type} (key : α → ℚ) (l : List α) :
    List.Perm (sortByDesc key l) l := by
  induction l with
  | nil => simp [sortByDesc]
  | cons x xs ih =>
    simp only [sortByDesc, List.foldr] at ih ⊢
    exact (insertByDesc_perm key x _).trans (ih.cons x)

/-- Membership transfers across `sortByDesc`. -/
theorem mem_sortByDesc {α : Type} (key : α → ℚ) (l : List α) (x : α) :
    x ∈ sortByDesc key l ↔ x ∈ l :=
  (sortByDesc_perm key l).mem_iff

theorem insertByDesc_sorted {α : Type} (key : α → ℚ) (x : α) (l : List α)
    (h : List.Pairwise (fun a b => key b ≤ key a) l) :
    List.Pairwise (fun a b => key b ≤ key a) (insertByDesc key x l) := by
  induction l with
  | nil => simp [insertByDesc]
  | cons y ys ih =>
    simp only [insertByDesc]
    rcases List.pairwise_cons.mp h with ⟨hy, hys⟩
    by_cases hc : key y < key x
    · rw [if_pos hc]
      refine List.pairwise_cons.mpr ⟨?_, h⟩
      intro b hb
      rcases List.mem_cons.mp hb with hb | hb
      · subst hb
        exact le_of_lt hc
      · exact le_trans (hy _ hb) (le_of_lt hc)
    · rw [if_neg hc]
      refine List.pairwise_cons.mpr ⟨?_, ih hys⟩
      intro b hb
      rcases List.mem_cons.mp ((insertByDesc_perm key x ys).mem_iff.mp hb) with hb | hb
      · subst hb
        exact le_of_not_lt hc
      · exact hy _ hb

/-- `sortByDesc` really sorts: the key is non-increasing along the output. -/
theorem sortByDesc_sorted {α : Type} (key : α → ℚ) (l : List α) :
    List.Pairwise (fun a b => key b ≤ key a) (sortByDesc key l) := by
  induction l with
  | nil => simp [sortByDesc]
  | cons x xs ih => exact insertByDesc_sorted key x _ ih

/-- Maximum of a list of naturals, `0` on the empty list. -/
def natMax (l : List Nat) : Nat :=
  l.foldr Nat.max 0

theorem le_natMax_of_mem : ∀ (l : List Nat) (x : Nat), x ∈ l → x ≤ natMax l := by
  intro l
  induction l with
  | nil => intro x h; cases h
  | cons y ys ih =>
    intro x h
    rcases List.mem_cons.mp h with hx | hx
    · subst hx
      exact Nat.le_max_left _ _
    · exact le_trans (ih x hx) (Nat.le_max_right _ _)

theorem natMax_mem : ∀ (l : List Nat), l ≠ [] → natMax l ∈ l := by
  intro l
  induction l with
  | nil => intro h; exact absurd rfl h
  | cons y ys ih =>
    intro _
    rcases eq_or_ne ys [] with hys | hys
    · subst hys
      simp [natMax]
    · have hmem := ih hys
      simp only [natMax, List.foldr] at hmem ⊢
      rcases Nat.le_total (ys.foldr Nat.max 0) y with hle | hle
      · have hmx : Nat.max y (ys.foldr Nat.max 0) = y := Nat.max_eq_left hle
        rw [hmx]
        exact List.mem_cons_self _ _
      · have hmx : Nat.max y (ys.foldr Nat.max 0) = ys.foldr Nat.max 0 :=
          Nat.max_eq_right hle
        rw [hmx]
        exact List.mem_cons_of_mem _ hmem

/-! ## Data model (db.py) -/

/-- Row of the `documents` table (db.py, class `Document`).  Dates are
modelled as integers ordered like timestamps. -/
structure Doc where
  id : String
  filename : String := ""
  title : String := ""
  author : String := ""
  creation_date : Int := 0
  page_count : Nat := 0
  language : String := ""
  summary : String := ""
  document_type : String := ""
  topics : List String := []
  table_count : Nat := 0
deriving Repr, DecidableEq

/-- Row of the `document_pages` table (db.py, class `DocumentPage`). -/
structure PageRow where
  document_id : String
  page_number : Nat
  has_table : Bool
deriving Repr, DecidableEq

/-- Row of the `document_chunks` table (db.py, class `DocumentChunk`). -/
structure ChunkRow where
  id : String
  document_id : String
  page_number : Nat
  chunk_index : Nat
  content : String
  content_type : String := "text"
  section_path : List String := []
  embedding : List ℚ := []
  token_count : Nat := 0
  importance : ℚ := 1
deriving Repr, DecidableEq

/-- An entity occurrence `(chunk_id, char_start, char_end)`. -/
structure OccurrenceRec where
  chunk_id : String
  start : Nat
  stop : Nat
deriving Repr, DecidableEq

/-- Row of the `document_entities` table (db.py, class `DocumentEntity`). -/
structure EntityRow where
  id : String
  document_id : String
  type : String
  name : String
  normalized_name : String
  occurrences : List OccurrenceRec := []
  importance : ℚ := 0
  description : String := ""
deriving Repr, DecidableEq

/-- Row of the `document_relationships` table (db.py, class
`DocumentRelationship`). -/
structure RelationshipRow where
  id : String
  document_id : String
  source_entity_id : String
  target_entity_id : String
  type : String
  confidence : ℚ
  description : String := ""
  chunk_ids : List String := []
deriving Repr, DecidableEq

/-- Snapshot of the whole store read by the search functions. -/
structure Store where
  documents : List Doc := []
  pages : List PageRow := []
  chunks : List ChunkRow := []
  entities : List EntityRow := []
  relationships : List RelationshipRow := []
deriving Repr

/-- Look a document up by id (`session.query(Document).filter(Document.id
== ...).first()`). -/
def findDoc (s : Store) (docId : String) : Option Doc :=
  s.documents.find? (fun d => d.id = docId)

/-! ## Filters (search.py, `apply_filters`) -/

/-- The keyword filters accepted by the generic search functions.  A
`none` field models an absent key; python truthiness of present values is
checked separately below, mirroring `if 'author' in filters and
filters['author']:` etc. -/
structure Filters where
  author : Option String := none
  creation_date_start : Option Int := none
  creation_date_end : Option Int := none
  document_type : Option String := none
  language : Option String := none
  topics : Option (List String) := none
  min_page : Option Nat := none
  max_page : Option Nat := none
deriving Repr, DecidableEq

/-- `has_doc_filters` in `apply_filters`: key presence (not truthiness) of
any document-level filter forces the join onto `documents`. -/
def Filters.hasDocFilters (f : Filters) : Bool :=
  f.author.isSome || f.creation_date_start.isSome || f.creation_date_end.isSome ||
    f.document_type.isSome || f.topics.isSome || f.language.isSome

/-- `ilike '%a%'`: case-insensitive substring match. -/
def ilikeContains (column pat : String) : Bool :=
  strContains (pyLower column) (pyLower pat)

/-- The conjunction of document-level filter conditions for one joined
document row, mirroring the `query.filter(...)` chain of `apply_filters`.
Present-but-falsy values (empty string, empty topic list) add no
condition, exactly as the python truthiness guards do. -/
def docFilterConds (f : Filters) (d : Doc) : Bool :=
  (match f.author with
   | some a => a = "" || ilikeContains d.author a
   | none => true) &&
  (match f.creation_date_start with
   | some t => decide (t ≤ d.creation_date)
   | none => true) &&
  (match f.creation_date_end with
   | some t => decide (d.creation_date ≤ t)
   | none => true) &&
  (match f.document_type with
   | some ty => ty = "" || d.document_type = ty
   | none => true) &&
  (match f.language with
   | some lg => lg = "" || d.language = lg
   | none => true) &&
  (match f.topics with
   | some ts => ts.isEmpty || ts.any (fun t => d.topics.contains t)
   | none => true)

/-- Page-range filter conditions (applied directly on the chunk row). -/
def pageFilterConds (f : Filters) (c : ChunkRow) : Bool :=
  (match f.min_page with
   | some p => decide (p ≤ c.page_number)
   | none => true) &&
  (match f.max_page with
   | some p => decide (c.page_number ≤ p)
   | none => true)

/-- `apply_filters` as a predicate on chunk rows: when any document-level
filter key is present the chunk is inner-joined to its document (a chunk
with no matching document row is excluded), then all active conditions
must hold. -/
def applyFilters (s : Store) (f : Filters) (c : ChunkRow) : Bool :=
  (if f.hasDocFilters then
    match findDoc s c.document_id with
    | some d => docFilterConds f d
    | none => false
  else true) && pageFilterConds f c

/-- Python truthiness of the `document_id` argument: `if document_id:`. -/
def docIdActive (docId : Option String) : Bool :=
  match docId with
  | some d => d ≠ ""
  | none => false

/-- The document-scope condition of the generic searches
(`base_query.filter(DocumentChunk.document_id == document_id)`, applied
only when `document_id` is truthy). -/
def scopeCond (docId : Option String) (c : ChunkRow) : Bool :=
  if docIdActive docId then docId = some c.document_id else true

/-! ## External collaborators -/

/-- The black-box database scoring primitives consumed by search.py:
PostgreSQL `@@` tsquery matching, `ts_rank`, and the pgvector `<=>`
cosine-distance operator.  Each takes the same arguments as in the SQL
expressions of the source. -/
structure Engine where
  tsMatch : String → String → Bool
  tsRank : String → String → ℚ
  dist : List ℚ → List ℚ → ℚ

/-- The possible shapes of `embedder.encode(query)` as discriminated by
the `isinstance` chain of search.py: a numpy array (flattened and
converted with `tolist()`), a nested python list (first row taken), a
flat python list, or anything else (fails the `isinstance(query_embedding,
list)` validation). -/
inductive PyEmb where
  | ndarray (dims : List Nat) (data : List ℚ)
  | nested (row0 : List ℚ) (rest : List (List ℚ))
  | flat (xs : List ℚ)
  | other
deriving Repr, DecidableEq

/-- The embedder collaborator: `encode` may fail (caught inside the
search `try` blocks). -/
def Embedder : Type := String → Except String PyEmb

/-- The flatten/unwrap sequence of search.py followed by the
`isinstance(query_embedding, list)` check: `some xs` when the processed
value is a flat list `xs`, `none` when it is not a list at all. -/
def processEmb : PyEmb → Option (List ℚ)
  | .ndarray _ data => some data
  | .nested row0 _ => some row0
  | .flat xs => some xs
  | .other => none

/-- Length of the processed embedding, when it is a list. -/
def embLen (e : PyEmb) : Option Nat :=
  (processEmb e).map List.length

/-- Validation of the processed query embedding (`len(query_embedding) !=
768` raises `ValueError`, caught into the error envelope). -/
def validateEmb (e : PyEmb) : Except String (List ℚ) :=
  match processEmb e with
  | some xs =>
    if xs.length = 768 then Except.ok xs
    else Except.error "Expected 1D embedding of length 768"
  | none => Except.error "Expected 1D embedding of length 768"

/-! ## Result envelopes (search.py return dictionaries) -/

/-- The `document_info` summary attached to each result. -/
structure DocInfo where
  title : String
  author : String
  document_type : String
deriving Repr, DecidableEq

/-- `document_info` construction with the `'Unknown'` fallbacks used when
the document lookup returns nothing. -/
def docInfoOf (s : Store) (docId : String) : DocInfo :=
  match findDoc s docId with
  | some d => ⟨d.title, d.author, d.document_type⟩
  | none => ⟨"Unknown", "Unknown", "Unknown"⟩

/-- The common response envelope `{results, total, query, limit, offset,
search_type, execution_time, error?}`.  The error envelope
`{results: [], total: 0, error: msg}` is the case `error = some msg` with
`results = []` and `total = 0`. -/
structure SearchOut (R : Type) where
  results : List R
  total : Nat
  query : String := ""
  limit : Nat := 0
  offset : Nat := 0
  search_type : String := ""
  error : Option String := none
deriving Repr

/-- The error envelope `{'results': [], 'total': 0, 'error': str(e)}`. -/
def errEnvelope (R : Type) (msg : String) : SearchOut R :=
  { results := [], total := 0, error := some msg }

/-- `o` is the returned-error envelope of the error-handling convention. -/
def isErrEnvelope {R : Type} (o : SearchOut R) : Prop :=
  o.results = [] ∧ o.total = 0 ∧ o.error.isSome

/-! ## fulltext_search (search.py) -/

/-- The match-expression construction of `fulltext_search` (and of the
raw SQL of `hybrid_search`):
`" | ".join(term for term in query.split() if len(term) > 2) or query`. -/
def ftSearchTerms (query : String) : String :=
  let joined := String.intercalate " | " ((pySplit query).filter (fun t => 2 < t.length))
  if joined = "" then query else joined

/-- One formatted fulltext result row. -/
structure FtResult where
  chunk_id : String
  document_id : String
  page_number : Nat
  content : String
  section_path : List String
  score : ℚ
  document_info : DocInfo
deriving Repr

/-- `fulltext_search`: PostgreSQL full-text search on document chunks.
The tsquery match, document scope and filters select the rows; the same
predicate drives the separate count query; rows are ordered by
`ts_rank` descending and paginated. -/
def fulltext_search (eng : Engine) (s : Store) (query : String)
    (limit offset : Nat) (document_id : Option String) (filters : Filters) :
    SearchOut FtResult :=
  let search_terms := ftSearchTerms query
  let keep := fun (c : ChunkRow) =>
    eng.tsMatch search_terms c.content && scopeCond document_id c && applyFilters s filters c
  let matched := s.chunks.filter keep
  let scored := matched.map (fun c =>
    ({ chunk_id := c.id, document_id := c.document_id, page_number := c.page_number,
       content := c.content, section_path := c.section_path,
       score := eng.tsRank search_terms c.content,
       document_info := docInfoOf s c.document_id } : FtResult))
  { results := ((sortByDesc (fun r => r.score) scored).drop offset).take limit,
    total := matched.length,
    query := query, limit := limit, offset := offset,
    search_type := "fulltext", error := none }

/-! ## vector_search (search.py) -/

/-- One formatted vector-search result row. -/
structure VecResult where
  chunk_id : String
  document_id : String
  page_number : Nat
  content : String
  section_path : List String
  similarity : ℚ
  importance : ℚ
  score : ℚ
  document_info : DocInfo
deriving Repr

/-- The `try` body of `vector_search`: query validation, embedding
generation and shape validation, then the importance-weighted
nearest-neighbour query.  The count query applies only the document
scope and the filters. -/
def vectorBody (eng : Engine) (embedder : Embedder) (s : Store) (query : String)
    (limit offset : Nat) (document_id : Option String) (filters : Filters) :
    Except String (SearchOut VecResult) :=
  if pyBlank query then
    Except.error ("Query must be a non-empty string, got " ++ query)
  else
    match embedder query with
    | .error m => Except.error ("Failed to generate embedding for query: " ++ m)
    | .ok emb =>
      match validateEmb emb with
      | .error m => Except.error m
      | .ok qe =>
        let inScope := s.chunks.filter (fun c => scopeCond document_id c && applyFilters s filters c)
        let scored := inScope.map (fun c =>
          let sim := 1 - eng.dist c.embedding qe
          ({ chunk_id := c.id, document_id := c.document_id, page_number := c.page_number,
             content := c.content, section_path := c.section_path,
             similarity := sim, importance := c.importance,
             score := sim * c.importance,
             document_info := docInfoOf s c.document_id } : VecResult))
        Except.ok { results := ((sortByDesc (fun r => r.score) scored).drop offset).take limit,
                    total := inScope.length,
                    query := query, limit := limit, offset := offset,
                    search_type := "vector", error := none }

/-- `vector_search` with its enclosing `try/except`: any failure becomes
the returned-error envelope. -/
def vector_search (eng : Engine) (embedder : Embedder) (s : Store) (query : String)
    (limit offset : Nat) (document_id : Option String) (filters : Filters) :
    SearchOut VecResult :=
  match vectorBody eng embedder s query limit offset document_id filters with
  | .ok out => out
  | .error msg => errEnvelope _ msg

/-! ## hybrid_search (search.py) -/

/-- One formatted hybrid result row. -/
structure HyResult where
  chunk_id : String
  document_id : String
  page_number : Nat
  content : String
  section_path : List String
  vector_similarity : ℚ
  text_rank : ℚ
  score : ℚ
  importance : ℚ
  document_info : DocInfo
deriving Repr

/-- `document_info` of the hybrid raw SQL: a LEFT JOIN onto `documents`,
with `'Unknown'` both for a missing row and for empty (falsy) fields. -/
def hyDocInfo (s : Store) (docId : String) : DocInfo :=
  match findDoc s docId with
  | some d =>
    ⟨if d.title = "" then "Unknown" else d.title,
     if d.author = "" then "Unknown" else d.author,
     if d.document_type = "" then "Unknown" else d.document_type⟩
  | none => ⟨"Unknown", "Unknown", "Unknown"⟩

/-- The per-row scoring of the hybrid raw SQL: vector similarity,
lexical rank and their weighted combination, over ALL chunk rows. -/
def hyScored (eng : Engine) (s : Store) (qe : List ℚ) (search_terms : String)
    (vector_weight text_weight : ℚ) : List HyResult :=
  s.chunks.map (fun c =>
    let vector_sim := 1 - eng.dist c.embedding qe
    let text_rank := eng.tsRank search_terms c.content
    ({ chunk_id := c.id, document_id := c.document_id, page_number := c.page_number,
       content := c.content, section_path := c.section_path,
       vector_similarity := vector_sim, text_rank := text_rank,
       score := vector_weight * vector_sim + text_weight * text_rank,
       importance := c.importance,
       document_info := hyDocInfo s c.document_id } : HyResult))

/-- The `try` body of `hybrid_search`.  The raw SQL selects from ALL of
`document_chunks` — the `document_id` and `filters` arguments are
accepted by the python signature but never referenced by the SQL, and the
count query counts all chunk rows. -/
def hybridBody (eng : Engine) (embedder : Embedder) (s : Store) (query : String)
    (limit offset : Nat) (document_id : Option String)
    (vector_weight text_weight : ℚ) (filters : Filters) :
    Except String (SearchOut HyResult) :=
  if pyBlank query then
    Except.error ("Query must be a non-empty string, got " ++ query)
  else
    match embedder query with
    | .error m => Except.error m
    | .ok emb =>
      match validateEmb emb with
      | .error m => Except.error m
      | .ok qe =>
        let scored := hyScored eng s qe (ftSearchTerms query) vector_weight text_weight
        Except.ok { results := ((sortByDesc (fun r => r.score) scored).drop offset).take limit,
                    total := s.chunks.length,
                    query := query, limit := limit, offset := offset,
                    search_type := "hybrid", error := none }

/-- `hybrid_search` with its enclosing `try/except`. -/
def hybrid_search (eng : Engine) (embedder : Embedder) (s : Store) (query : String)
    (limit offset : Nat) (document_id : Option String)
    (vector_weight text_weight : ℚ) (filters : Filters) :
    SearchOut HyResult :=
  match hybridBody eng embedder s query limit offset document_id vector_weight text_weight filters with
  | .ok out => out
  | .error msg => errEnvelope _ msg

/-! ## document_chat_search (search.py) -/

/-- The python value bound to the `document_id` parameter of
`document_chat_search`: a single id string, or the list of ids that
api.py passes for document-chat mode. -/
inductive PyDocId where
  | str (s : String)
  | list (ids : List String)
deriving Repr, DecidableEq

/-- Python truthiness of the `document_id` argument
(`if not document_id:`). -/
def PyDocId.truthy : PyDocId → Bool
  | .str s => s ≠ ""
  | .list l => !l.isEmpty

/-- `Document.id == document_id` for the possibly-list-valued argument
(`document_id = UUID(document_id) if isinstance(document_id, str) else
document_id`): a list compares equal to no stored id. -/
def PyDocId.eqId : PyDocId → String → Bool
  | .str s, i => s = i
  | .list _, _ => false

/-- The four weights of `document_chat_search` with their python default
values 0.3, 0.3, 0.2, 0.2. -/
structure DcWeights where
  importance_weight : ℚ := 3/10
  entity_weight : ℚ := 3/10
  structural_weight : ℚ := 1/5
  recency_weight : ℚ := 1/5
deriving Repr, DecidableEq

/-- The document metadata attached to each limited result. -/
structure DcDocInfo where
  title : String
  author : String
  document_type : String
  creation_date : Int
  topics : List String
deriving Repr, DecidableEq

/-- One processed document-chat result record. -/
structure DcResult where
  chunk_id : String
  document_id : String
  page_number : Nat
  content : String
  section_path : List String
  content_type : String
  semantic_similarity : ℚ
  entity_relevance : ℚ
  relationship_relevance : ℚ
  structural_relevance : ℚ
  importance : ℚ
  score : ℚ
  document_info : Option DcDocInfo
deriving Repr

/-- Step 2 of `document_chat_search` — entity recognition.  Returns the
matched entity ids (`entity_matches`) and the lowercased matched names
(`potential_entities`), scanning the document's entities in order. -/
def dcEntityMatches (s : Store) (query : String) (docIdStr : String) :
    List String × List String :=
  let query_terms := pySplit (pyLower query)
  (s.entities.filter (fun e => e.document_id = docIdStr)).foldl
    (fun (acc : List String × List String) e =>
      let entity_name := pyLower e.name
      let normalized_name := if e.normalized_name ≠ "" then pyLower e.normalized_name else entity_name
      if strContains (pyLower query) entity_name ||
         strContains (pyLower query) normalized_name ||
         query_terms.any (fun t => (pySplit entity_name).contains t) then
        (acc.1 ++ [e.id], acc.2 ++ [entity_name])
      else acc)
    ([], [])

/-- Step 3 — relationship mapping: the chunk ids listed as provenance of
any relationship of the document touching a matched entity. -/
def dcRelChunkIds (s : Store) (docIdStr : String) (entity_matches : List String) :
    List String :=
  if entity_matches.isEmpty then []
  else
    ((s.relationships.filter (fun r =>
        r.document_id = docIdStr &&
        (entity_matches.contains r.source_entity_id ||
         entity_matches.contains r.target_entity_id))).map
      (fun r => r.chunk_ids)).flatten

/-- `table_related_terms` of step 4. -/
def tableRelatedTerms : List String :=
  ["table", "chart", "graph", "figure", "data", "statistics", "numbers"]

/-- `table_query`: the query contains table-indicative vocabulary. -/
def dcTableQuery (query : String) : Bool :=
  tableRelatedTerms.any (fun t => strContains (pyLower query) t)

/-- The page numbers of the document's pages flagged `has_table`
(computed only when `table_query` holds). -/
def dcTablePages (s : Store) (docIdStr : String) (tq : Bool) : List Nat :=
  if tq then
    (s.pages.filter (fun p => p.document_id = docIdStr && p.has_table)).map
      (fun p => p.page_number)
  else []

/-- The entity-relevance score of one chunk:
`min(1.0, entity_mentions / len(potential_entities))`, 0 when no entity
matched the query. -/
def dcEntityScore (potential_entities : List String) (c : ChunkRow) : ℚ :=
  if potential_entities.isEmpty then 0
  else
    let entity_mentions :=
      (potential_entities.filter (fun n => strContains (pyLower c.content) n)).length
    min 1 ((entity_mentions : ℚ) / (potential_entities.length : ℚ))

/-- The structural-relevance score of one chunk. -/
def dcStructuralScore (tq : Bool) (table_pages : List Nat) (c : ChunkRow) : ℚ :=
  if tq && table_pages.contains c.page_number then 1
  else if c.content_type = "table" && tq then 1
  else if !c.section_path.isEmpty then min 1 ((c.section_path.length : ℚ) / 5)
  else 0

/-- The combined score of `document_chat_search`, exactly as written in
the source. -/
def dcCombined (w : DcWeights) (base_score importance_score entity_score relationship_score structural_score : ℚ) : ℚ :=
  base_score * (1 - w.importance_weight - w.entity_weight - w.structural_weight - w.recency_weight) +
    importance_score * w.importance_weight +
    (entity_score + relationship_score) * w.entity_weight / 2 +
    structural_score * w.structural_weight

/-- Steps 1–5 of `document_chat_search` for a resolved document id: every
chunk of the document is scored with the four signals and the combined
score (`processed_results` before sorting). -/
def dcScored (eng : Engine) (s : Store) (qe : List ℚ) (query : String)
    (docIdStr : String) (w : DcWeights) : List DcResult :=
  let em := dcEntityMatches s query docIdStr
  let relationship_chunk_ids := dcRelChunkIds s docIdStr em.1
  let tq := dcTableQuery query
  let table_pages := dcTablePages s docIdStr tq
  (s.chunks.filter (fun c => c.document_id = docIdStr)).map (fun c =>
    let base_score := 1 - eng.dist c.embedding qe
    let entity_score := dcEntityScore em.2 c
    let relationship_score : ℚ := if relationship_chunk_ids.contains c.id then 1 else 0
    let structural_score := dcStructuralScore tq table_pages c
    { chunk_id := c.id, document_id := c.document_id, page_number := c.page_number,
      content := c.content, section_path := c.section_path, content_type := c.content_type,
      semantic_similarity := base_score, entity_relevance := entity_score,
      relationship_relevance := relationship_score, structural_relevance := structural_score,
      importance := c.importance,
      score := dcCombined w base_score c.importance entity_score relationship_score structural_score,
      document_info := none })

/-- Attach the document metadata to a limited result. -/
def dcAttachInfo (d : Doc) (r : DcResult) : DcResult :=
  { r with document_info := some ⟨d.title, d.author, d.document_type, d.creation_date, d.topics⟩ }

/-- The `try` body of `document_chat_search`: validate the document id,
look the document up (a list-valued id matches nothing), generate and
validate the query embedding, score every chunk in scope, sort by
combined score descending and truncate to `limit`. -/
def dcBody (eng : Engine) (embedder : Embedder) (s : Store) (query : String)
    (document_id : PyDocId) (limit : Nat) (w : DcWeights) :
    Except String (SearchOut DcResult) :=
  if !document_id.truthy then
    Except.error "Document ID is required for document chat search"
  else
    match s.documents.find? (fun d => document_id.eqId d.id) with
    | none => Except.error "Document not found"
    | some document =>
      match embedder query with
      | .error m => Except.error m
      | .ok emb =>
        match validateEmb emb with
        | .error m => Except.error m
        | .ok qe =>
          let processed_results := dcScored eng s qe query document.id w
          let ordered := sortByDesc (fun r => r.score) processed_results
          let limited_results := (ordered.take limit).map (dcAttachInfo document)
          Except.ok { results := limited_results, total := processed_results.length,
                      query := query, limit := limit,
                      search_type := "document_chat", error := none }

/-- `document_chat_search` with its enclosing `try/except`. -/
def document_chat_search (eng : Engine) (embedder : Embedder) (s : Store)
    (query : String) (document_id : PyDocId) (limit : Nat) (w : DcWeights) :
    SearchOut DcResult :=
  match dcBody eng embedder s query document_id limit w with
  | .ok out => out
  | .error msg => errEnvelope _ msg

/-! ## api.py: /query document-chat dispatch and /document delete -/

/-- The scope normalization of api.py's `query_document` for
document-chat mode: a list is passed through, a single id is wrapped into
a one-element list, and the result is handed to `document_chat_search`. -/
def apiDocScope : PyDocId → PyDocId
  | .list l => .list l
  | .str sid => .list [sid]

/-- Outcome of the `/query` endpoint in document-chat mode. -/
inductive QueryOutcome where
  | ok (res : SearchOut DcResult)
  | httpError (code : Nat) (detail : String)
deriving Repr

/-- The document-chat branch of api.py's `query_document`: validates
query and scope, normalizes the scope to a list, calls
`document_chat_search` (with its default limit 15 and default weights)
and maps an error envelope to HTTP 500. -/
def query_document_chat (eng : Engine) (embedder : Embedder) (s : Store)
    (query : String) (document_id : Option PyDocId) : QueryOutcome :=
  if query = "" then .httpError 400 "Query is required"
  else
    match document_id with
    | none => .httpError 400 "Document ID is required for document chat mode"
    | some scope =>
      if !scope.truthy then
        match scope with
        | .list _ => .httpError 400 "At least one document ID is required"
        | .str _ => .httpError 400 "Document ID is required for document chat mode"
      else
        let res := document_chat_search eng embedder s query (apiDocScope scope) 15 {}
        if res.error.isSome then .httpError 500 "Search failed"
        else .ok res

/-- Outcome of the `/document/{id}` DELETE endpoint. -/
inductive DeleteOutcome where
  | success
  | httpError (code : Nat)
deriving Repr, DecidableEq

/-- api.py `delete_document`: deletes the chunk and page rows with this
`document_id`, then the document row itself, and commits.  Entity and
relationship rows are not touched.  When the document does not exist, the
raised not-found error is swallowed by the generic handler (nothing was
committed, so the store is unchanged) and an HTTP error is returned. -/
def delete_document (s : Store) (document_id : String) : DeleteOutcome × Store :=
  match findDoc s document_id with
  | some _ =>
    (DeleteOutcome.success,
     { s with
        chunks := s.chunks.filter (fun c => c.document_id ≠ document_id),
        pages := s.pages.filter (fun p => p.document_id ≠ document_id),
        documents := s.documents.filter (fun d => d.id ≠ document_id) })
  | none => (DeleteOutcome.httpError 500, s)

/-! ## Chunker (pdf_processing.py, ingest_pdf page loop) -/

/-- One chunk flushed by the page chunking loop of `ingest_pdf`:
the joined words, the running token count at flush time, and the
per-document chunk index. -/
structure PageChunkRec where
  content : String
  words : List String
  token_count : Nat
  chunk_index : Nat
deriving Repr, DecidableEq

/-- Accumulator of the chunking loop: the word buffer `current_chunk`,
the running `current_token_count`, and the chunks flushed so far on this
page. -/
structure ChunkAcc where
  buf : List String
  count : Nat
  chunks : List PageChunkRec
deriving Repr, DecidableEq

/-- Flush the buffer as one chunk (`chunk_index` continues from
`startIdx`, the document-wide chunk count at page start). -/
def flushChunk (startIdx : Nat) (st : ChunkAcc) : ChunkAcc :=
  { buf := [], count := 0,
    chunks := st.chunks ++
      [{ content := String.intercalate " " st.buf, words := st.buf,
         token_count := st.count, chunk_index := startIdx + st.chunks.length }] }

/-- One iteration of the word loop: when adding the next word would
exceed the budget and the buffer is non-empty, flush first; then append
the word and its token count. -/
def chunkStep (tok : String → Nat) (budget startIdx : Nat) (st : ChunkAcc) (word : String) :
    ChunkAcc :=
  let t := tok word
  let st :=
    if budget < st.count + t then
      if st.buf.isEmpty then st else flushChunk startIdx st
    else st
  { st with buf := st.buf ++ [word], count := st.count + t }

/-- The page chunking loop of `ingest_pdf` (the greedy word
accumulation over `page_text.split()` plus the trailing flush). `tok`
is the external tokenizer (`len(tokenizer.encode(word))`). -/
def chunkPage (tok : String → Nat) (budget startIdx : Nat) (text_blocks : List String) :
    List PageChunkRec :=
  let st := text_blocks.foldl (chunkStep tok budget startIdx) ⟨[], 0, []⟩
  if st.buf.isEmpty then st.chunks else (flushChunk startIdx st).chunks

/-! ## Entity & relationship extractor (pdf_processing.py, extract_entities) -/

/-- One NER mention as delivered by the external spacy model
(`ent.text`, `ent.label_`, `ent.start_char`, `ent.end_char`). -/
structure Mention where
  text : String
  label : String
  start_char : Nat
  end_char : Nat
deriving Repr, DecidableEq

/-- The black-box NER collaborator. -/
def NER : Type := String → List Mention

/-- The chunk-dict fields read by `extract_entities`. -/
structure EChunk where
  id : String
  content : String
  content_type : String
deriving Repr, DecidableEq

/-- The per-key accumulation record of `entity_groups` (importance is the
running mention counter at this stage). -/
structure EntityAcc where
  id : String
  type : String
  name : String
  normalized_name : String
  occurrences : List OccurrenceRec
  importance : Nat
  description : String
deriving Repr, DecidableEq

/-- A relationship record as produced by `extract_entities` (no
`document_id` yet; api.py adds it at storage time). -/
structure RelRec where
  id : String
  source_entity_id : String
  target_entity_id : String
  type : String
  confidence : ℚ
  description : String
  chunk_ids : List String
deriving Repr, DecidableEq

/-- State threaded through `extract_entities`: the keyed entity groups in
insertion order, the relationship list, and a counter standing in for
`uuid.uuid4()` generation. -/
structure ExtractSt where
  groups : List ((String × String) × EntityAcc)
  rels : List RelRec
  fresh : Nat
deriving Repr

/-- Association-list lookup on the entity groups. -/
def lookupGroup (groups : List ((String × String) × EntityAcc)) (key : String × String) :
    Option EntityAcc :=
  (groups.find? (fun g => g.1 = key)).map (fun g => g.2)

/-- Append an occurrence and bump the mention counter of an existing
group. -/
def updateGroup (groups : List ((String × String) × EntityAcc)) (key : String × String)
    (occ : OccurrenceRec) : List ((String × String) × EntityAcc) :=
  groups.map (fun g =>
    if g.1 = key then
      (g.1, { g.2 with occurrences := g.2.occurrences ++ [occ],
                       importance := g.2.importance + 1 })
    else g)

/-- Process one NER mention of one chunk: canonicalize by
`(lowercased text, label)`, create the entity on first sight, record the
occurrence, and append the entity id to `chunk_entities`. -/
def processMention (chunkId : String) (st : ExtractSt × List String) (m : Mention) :
    ExtractSt × List String :=
  let key := (pyLower m.text, m.label)
  let occ : OccurrenceRec := ⟨chunkId, m.start_char, m.end_char⟩
  match lookupGroup st.1.groups key with
  | some acc =>
    ({ st.1 with groups := updateGroup st.1.groups key occ }, st.2 ++ [acc.id])
  | none =>
    let eid := "entity-" ++ toString st.1.fresh
    let acc : EntityAcc :=
      ⟨eid, m.label, m.text, pyLower m.text, [occ], 1, ""⟩
    ({ st.1 with groups := st.1.groups ++ [(key, acc)], fresh := st.1.fresh + 1 },
     st.2 ++ [eid])

/-- The per-chunk relationship emission: when more than one entity id was
collected, one record per ordered index pair `(i, j)`, `i < j`, of
`chunk_entities`, each with type `"co-occurrence"`, confidence 0.5 and
this chunk as sole provenance. -/
def mkRels (chunkId : String) (fresh : Nat) (chunk_entities : List String) : List RelRec :=
  if 1 < chunk_entities.length then
    (pairsOf chunk_entities).enum.map (fun p =>
      { id := "rel-" ++ toString (fresh + p.1),
        source_entity_id := p.2.1, target_entity_id := p.2.2,
        type := "co-occurrence", confidence := 1/2,
        description := "Entities appear in the same chunk",
        chunk_ids := [chunkId] })
  else []

/-- Process one chunk of `extract_entities` (non-text chunks are
skipped). -/
def processChunk (ner : NER) (st : ExtractSt) (c : EChunk) : ExtractSt :=
  if c.content_type ≠ "text" then st
  else
    let step := (ner c.content).foldl (processMention c.id) (st, [])
    let rels := mkRels c.id step.1.fresh step.2
    { step.1 with rels := step.1.rels ++ rels, fresh := step.1.fresh + rels.length }

/-- Process the chunk list in order. -/
def processChunks (ner : NER) (st : ExtractSt) : List EChunk → ExtractSt
  | [] => st
  | c :: cs => processChunks ner (processChunk ner st c) cs

/-- A finalized entity record with normalized importance. -/
structure FinalEntity where
  id : String
  type : String
  name : String
  normalized_name : String
  occurrences : List OccurrenceRec
  importance : ℚ
  description : String
deriving Repr, DecidableEq

/-- `list(entity_groups.values())`: the accumulated entity records in
insertion order. -/
def rawEntitiesOf (ner : NER) (chunks : List EChunk) : List EntityAcc :=
  (processChunks ner ⟨[], [], 0⟩ chunks).groups.map (fun g => g.2)

/-- `max((entity["importance"] for entity in entities), default=1)`. -/
def maxImportanceOf (raw : List EntityAcc) : Nat :=
  if raw.isEmpty then 1 else natMax (raw.map (fun e => e.importance))

/-- The final normalization
`entity["importance"] / max_importance if max_importance > 0 else 0`. -/
def finalizeEntity (M : Nat) (e : EntityAcc) : FinalEntity :=
  { id := e.id, type := e.type, name := e.name,
    normalized_name := e.normalized_name, occurrences := e.occurrences,
    importance := if 0 < M then (e.importance : ℚ) / (M : ℚ) else 0,
    description := e.description }

/-- `extract_entities`: canonical entities (importance normalized by the
document-wide maximum mention count, `max(..., default=1)`) and the
co-occurrence relationship records. -/
def extract_entities (ner : NER) (chunks : List EChunk) :
    List FinalEntity × List RelRec :=
  let raw := rawEntitiesOf ner chunks
  (raw.map (finalizeEntity (maxImportanceOf raw)),
   (processChunks ner ⟨[], [], 0⟩ chunks).rels)

/-! ## Support lemmas for the claim theorems -/

theorem string_eq_empty_of_length (s : String) (h : s.length = 0) : s = "" := by
  cases s with
  | mk data =>
    cases data with
    | nil => rfl
    | cons c cs => simp [String.length] at h

theorem length_le_intercalateGo (sep : String) :
    ∀ (xs : List String) (a : String),
      a.length ≤ (String.intercalate.go a sep xs).length := by
  intro xs
  induction xs with
  | nil =>
    intro a
    simp [String.intercalate.go]
  | cons b bs ih =>
    intro a
    have h := ih (a ++ sep ++ b)
    rw [String.intercalate.go]
    refine le_trans ?_ h
    simp [String.length_append]
    omega

theorem intercalate_ne_empty (sep x : String) (xs : List String) (hx : x ≠ "") :
    String.intercalate sep (x :: xs) ≠ "" := by
  intro h
  have hlen : x.length ≤ (String.intercalate sep (x :: xs)).length := by
    rw [String.intercalate]
    exact length_le_intercalateGo sep xs x
  rw [h] at hlen
  exact hx (string_eq_empty_of_length x (Nat.le_zero.mp hlen))

theorem scopeCond_none (c : ChunkRow) : scopeCond none c = true := rfl

theorem applyFilters_default (s : Store) (c : ChunkRow) : applyFilters s {} c = true := rfl

theorem validateEmb_error_of_len (emb : PyEmb) (h : embLen emb ≠ some 768) :
    ∃ m, validateEmb emb = Except.error m := by
  unfold validateEmb
  unfold embLen at h
  cases hp : processEmb emb with
  | none => exact ⟨_, rfl⟩
  | some xs =>
    rw [hp] at h
    rw [Option.map_some'] at h
    have hxs : xs.length ≠ 768 := fun he => h (by rw [he])
    refine ⟨"Expected 1D embedding of length 768", ?_⟩
    show (if xs.length = 768 then Except.ok xs
          else Except.error "Expected 1D embedding of length 768") =
      Except.error "Expected 1D embedding of length 768"
    rw [if_neg hxs]

theorem vectorBody_ok_spec (eng : Engine) (embedder : Embedder) (s : Store) (query : String)
    (limit offset : Nat) (docId : Option String) (filters : Filters)
    (out : SearchOut VecResult)
    (hok : vectorBody eng embedder s query limit offset docId filters = Except.ok out) :
    out.error = none ∧
    out.total = (s.chunks.filter (fun c => scopeCond docId c && applyFilters s filters c)).length := by
  unfold vectorBody at hok
  split at hok
  · cases hok
  · split at hok
    · cases hok
    · split at hok
      · cases hok
      · injection hok with hout
        subst hout
        exact ⟨rfl, rfl⟩

theorem hybridBody_ok_spec (eng : Engine) (embedder : Embedder) (s : Store) (query : String)
    (limit offset : Nat) (docId : Option String) (vw tw : ℚ) (filters : Filters)
    (out : SearchOut HyResult)
    (hok : hybridBody eng embedder s query limit offset docId vw tw filters = Except.ok out) :
    out.error = none ∧ out.total = s.chunks.length := by
  unfold hybridBody at hok
  split at hok
  · cases hok
  · split at hok
    · cases hok
    · split at hok
      · cases hok
      · injection hok with hout
        subst hout
        exact ⟨rfl, rfl⟩

theorem vectorBody_error_of_badlen (eng : Engine) (embedder : Embedder) (s : Store)
    (query : String) (limit offset : Nat) (docId : Option String) (filters : Filters)
    (emb : PyEmb) (hemb : embedder query = Except.ok emb) (hlen : embLen emb ≠ some 768) :
    ∃ m, vectorBody eng embedder s query limit offset docId filters = Except.error m := by
  obtain ⟨m, hm⟩ := validateEmb_error_of_len emb hlen
  unfold vectorBody
  by_cases hb : pyBlank query = true
  · rw [if_pos hb]
    exact ⟨_, rfl⟩
  · rw [if_neg hb, hemb]
    simp only [hm]
    exact ⟨_, rfl⟩

theorem hybridBody_error_of_badlen (eng : Engine) (embedder : Embedder) (s : Store)
    (query : String) (limit offset : Nat) (docId : Option String) (vw tw : ℚ)
    (filters : Filters) (emb : PyEmb)
    (hemb : embedder query = Except.ok emb) (hlen : embLen emb ≠ some 768) :
    ∃ m, hybridBody eng embedder s query limit offset docId vw tw filters = Except.error m := by
  obtain ⟨m, hm⟩ := validateEmb_error_of_len emb hlen
  unfold hybridBody
  by_cases hb : pyBlank query = true
  · rw [if_pos hb]
    exact ⟨_, rfl⟩
  · rw [if_neg hb, hemb]
    simp only [hm]
    exact ⟨_, rfl⟩

theorem errEnvelope_isErr (R : Type) (m : String) : isErrEnvelope (errEnvelope R m) :=
  ⟨rfl, rfl, rfl⟩

/-! ## Claim theorems -/

/-- **C3.** For every input, each of `fulltext_search`, `vector_search`
and `hybrid_search` either returns a normal result envelope (`error =
none`) or returns the error envelope `{results: [], total: 0, error:
msg}`, and — being total functions of their inputs in this embedding, as
the catch-all `try/except` makes them in the source — never propagates an
exception; in particular a query embedding that is not a flat numeric
vector of exactly length 768 forces the error envelope in the two
embedding-consuming searches. -/
theorem search_error_envelope_convention :
    (∀ (eng : Engine) (s : Store) (q : String) (limit offset : Nat)
        (docId : Option String) (filters : Filters),
      (fulltext_search eng s q limit offset docId filters).error = none ∨
        isErrEnvelope (fulltext_search eng s q limit offset docId filters)) ∧
    (∀ (eng : Engine) (embedder : Embedder) (s : Store) (q : String) (limit offset : Nat)
        (docId : Option String) (filters : Filters),
      (vector_search eng embedder s q limit offset docId filters).error = none ∨
        isErrEnvelope (vector_search eng embedder s q limit offset docId filters)) ∧
    (∀ (eng : Engine) (embedder : Embedder) (s : Store) (q : String) (limit offset : Nat)
        (docId : Option String) (vw tw : ℚ) (filters : Filters),
      (hybrid_search eng embedder s q limit offset docId vw tw filters).error = none ∨
        isErrEnvelope (hybrid_search eng embedder s q limit offset docId vw tw filters)) ∧
    (∀ (eng : Engine) (embedder : Embedder) (s : Store) (q : String) (limit offset : Nat)
        (docId : Option String) (vw tw : ℚ) (filters : Filters) (emb : PyEmb),
      embedder q = Except.ok emb → embLen emb ≠ some 768 →
      isErrEnvelope (vector_search eng embedder s q limit offset docId filters) ∧
        isErrEnvelope (hybrid_search eng embedder s q limit offset docId vw tw filters)) := by
  refine ⟨?_, ?_, ?_, ?_⟩
  · intro eng s q limit offset docId filters
    exact Or.inl rfl
  · intro eng embedder s q limit offset docId filters
    unfold vector_search
    cases hb : vectorBody eng embedder s q limit offset docId filters with
    | ok out => exact Or.inl (vectorBody_ok_spec eng embedder s q limit offset docId filters out hb).1
    | error m => exact Or.inr (errEnvelope_isErr _ m)
  · intro eng embedder s q limit offset docId vw tw filters
    unfold hybrid_search
    cases hb : hybridBody eng embedder s q limit offset docId vw tw filters with
    | ok out => exact Or.inl (hybridBody_ok_spec eng embedder s q limit offset docId vw tw filters out hb).1
    | error m => exact Or.inr (errEnvelope_isErr _ m)
  · intro eng embedder s q limit offset docId vw tw filters emb hemb hlen
    constructor
    · obtain ⟨m, hm⟩ := vectorBody_error_of_badlen eng embedder s q limit offset docId filters emb hemb hlen
      unfold vector_search
      rw [hm]
      exact errEnvelope_isErr _ m
    · obtain ⟨m, hm⟩ := hybridBody_error_of_badlen eng embedder s q limit offset docId vw tw filters emb hemb hlen
      unfold hybrid_search
      rw [hm]
      exact errEnvelope_isErr _ m

/-- A mis-shaped embedder for the C3 witness: a flat list of length 3. -/
def wBadEmbedder : Embedder := fun _ => Except.ok (PyEmb.flat [0, 0, 0])

/-- A trivial engine for witnesses. -/
def wEngTrue : Engine := ⟨fun _ _ => true, fun _ _ => 0, fun _ _ => 0⟩

/-- Witness for C3: instantiating the embedding-length clause at a
length-3 embedding yields the error envelope for both searches. -/
theorem search_error_envelope_convention_witness :
    wBadEmbedder "hello" = Except.ok (PyEmb.flat [0, 0, 0]) ∧
    embLen (PyEmb.flat [0, 0, 0]) ≠ some 768 ∧
    (isErrEnvelope (vector_search wEngTrue wBadEmbedder {} "hello" 10 0 none {}) ∧
      isErrEnvelope (hybrid_search wEngTrue wBadEmbedder {} "hello" 10 0 none (13/20) (7/20) {})) :=
  ⟨rfl, by decide,
    search_error_envelope_convention.2.2.2 wEngTrue wBadEmbedder {} "hello" 10 0 none
      (13/20) (7/20) {} (PyEmb.flat [0, 0, 0]) rfl (by decide)⟩

/-- Helper: a successful `vector_search` result is its body's payload. -/
theorem vector_search_ok_of_error_none (eng : Engine) (embedder : Embedder) (s : Store)
    (q : String) (limit offset : Nat) (docId : Option String) (filters : Filters)
    (h : (vector_search eng embedder s q limit offset docId filters).error = none) :
    ∃ out, vectorBody eng embedder s q limit offset docId filters = Except.ok out ∧
      vector_search eng embedder s q limit offset docId filters = out := by
  unfold vector_search at h ⊢
  cases hb : vectorBody eng embedder s q limit offset docId filters with
  | ok out => exact ⟨out, rfl, rfl⟩
  | error m =>
    rw [hb] at h
    cases h

/-- **C10.** In vector mode the `total` field of a successful response
equals the number of chunks passing the document scope and filters
alone — it does not depend on the query string, the embedder, or any
similarity value (so it can exceed the number of chunks with meaningful
similarity to the query). -/
theorem vector_total_scope_filters_only (eng : Engine) (e1 e2 : Embedder) (s : Store)
    (q1 q2 : String) (l1 o1 l2 o2 : Nat) (docId : Option String) (filters : Filters)
    (h1 : (vector_search eng e1 s q1 l1 o1 docId filters).error = none)
    (h2 : (vector_search eng e2 s q2 l2 o2 docId filters).error = none) :
    (vector_search eng e1 s q1 l1 o1 docId filters).total =
      (s.chunks.filter (fun c => scopeCond docId c && applyFilters s filters c)).length ∧
    (vector_search eng e1 s q1 l1 o1 docId filters).total =
      (vector_search eng e2 s q2 l2 o2 docId filters).total := by
  obtain ⟨out1, hb1, he1⟩ := vector_search_ok_of_error_none eng e1 s q1 l1 o1 docId filters h1
  obtain ⟨out2, hb2, he2⟩ := vector_search_ok_of_error_none eng e2 s q2 l2 o2 docId filters h2
  have s1 := (vectorBody_ok_spec eng e1 s q1 l1 o1 docId filters out1 hb1).2
  have s2 := (vectorBody_ok_spec eng e2 s q2 l2 o2 docId filters out2 hb2).2
  rw [he1, he2]
  exact ⟨s1, by rw [s1, s2]⟩

/-- A well-shaped zero embedder (flat list of 768 zeros). -/
def wZeroEmbedder : Embedder := fun _ => Except.ok (PyEmb.flat (List.replicate 768 0))

/-- Two-document store exercising scope behaviour: one chunk per
document. -/
def wStoreTwoDocs : Store :=
  { documents := [{ id := "d1", title := "Doc One" }, { id := "d2", title := "Doc Two" }],
    chunks :=
      [{ id := "c1", document_id := "d1", page_number := 1, chunk_index := 0,
         content := "alpha alpha alpha" },
       { id := "c2", document_id := "d2", page_number := 1, chunk_index := 0,
         content := "beta beta beta" }] }

/-- Shape validation accepts the 768-zero embedding. -/
theorem validateEmb_zero768 :
    validateEmb (PyEmb.flat (List.replicate 768 0)) = Except.ok (List.replicate 768 0) := by
  show (if (List.replicate 768 (0 : ℚ)).length = 768 then
          Except.ok (List.replicate 768 (0 : ℚ))
        else Except.error "Expected 1D embedding of length 768") =
      Except.ok (List.replicate 768 0)
  rw [if_pos (List.length_replicate 768 (0 : ℚ))]

/-- Helper: a vector search whose three fallible steps succeed returns
the normal envelope. -/
theorem vector_search_error_none_of_steps (eng : Engine) (embedder : Embedder) (s : Store)
    (q : String) (limit offset : Nat) (docId : Option String) (filters : Filters)
    (emb : PyEmb) (qe : List ℚ)
    (hb : pyBlank q = false) (hemb : embedder q = Except.ok emb)
    (hv : validateEmb emb = Except.ok qe) :
    (vector_search eng embedder s q limit offset docId filters).error = none := by
  have hok : ∃ out, vectorBody eng embedder s q limit offset docId filters = Except.ok out := by
    unfold vectorBody
    rw [if_neg (by simp [hb])]
    simp only [hemb, hv]
    exact ⟨_, rfl⟩
  obtain ⟨out, hok⟩ := hok
  unfold vector_search
  rw [hok]
  exact (vectorBody_ok_spec eng embedder s q limit offset docId filters out hok).1

/-- Witness for C10: a concrete successful vector search scoped to
document `d1` has `total` equal to the scope-and-filter count (here 1),
for two different queries, limits and offsets. -/
theorem vector_total_scope_filters_only_witness :
    (vector_search wEngTrue wZeroEmbedder wStoreTwoDocs "alpha" 10 0 (some "d1") {}).error = none ∧
    (vector_search wEngTrue wZeroEmbedder wStoreTwoDocs "unrelated query" 5 0 (some "d1") {}).error = none ∧
    (vector_search wEngTrue wZeroEmbedder wStoreTwoDocs "alpha" 10 0 (some "d1") {}).total =
      (wStoreTwoDocs.chunks.filter
        (fun c => scopeCond (some "d1") c && applyFilters wStoreTwoDocs {} c)).length ∧
    (wStoreTwoDocs.chunks.filter
        (fun c => scopeCond (some "d1") c && applyFilters wStoreTwoDocs {} c)).length = 1 ∧
    (vector_search wEngTrue wZeroEmbedder wStoreTwoDocs "alpha" 10 0 (some "d1") {}).total =
      (vector_search wEngTrue wZeroEmbedder wStoreTwoDocs "unrelated query" 5 0 (some "d1") {}).total := by
  have h1 := vector_search_error_none_of_steps wEngTrue wZeroEmbedder wStoreTwoDocs
    "alpha" 10 0 (some "d1") {} (PyEmb.flat (List.replicate 768 0)) (List.replicate 768 0)
    (by decide) rfl validateEmb_zero768
  have h2 := vector_search_error_none_of_steps wEngTrue wZeroEmbedder wStoreTwoDocs
    "unrelated query" 5 0 (some "d1") {} (PyEmb.flat (List.replicate 768 0)) (List.replicate 768 0)
    (by decide) rfl validateEmb_zero768
  have hmain := vector_total_scope_filters_only wEngTrue wZeroEmbedder wZeroEmbedder
    wStoreTwoDocs "alpha" "unrelated query" 10 0 5 0 (some "d1") {} h1 h2
  exact ⟨h1, h2, hmain.1, by decide, hmain.2⟩

/-- **C7.** The fulltext match expression is the OR-combination (`" | "`
join) of the whitespace-separated query terms of length greater than 2;
when every term has length at most 2 the raw query string is used
verbatim, and such a query is then matched like any other expression —
its result total is the number of chunks matched against the raw query,
not zero by construction. -/
theorem fulltext_match_expression (eng : Engine) (s : Store) (q : String)
    (limit offset : Nat) :
    ((pySplit q).filter (fun t => 2 < t.length) ≠ [] →
      ftSearchTerms q =
        String.intercalate " | " ((pySplit q).filter (fun t => 2 < t.length))) ∧
    ((∀ t ∈ pySplit q, t.length ≤ 2) →
      ftSearchTerms q = q ∧
      (fulltext_search eng s q limit offset none {}).total =
        (s.chunks.filter (fun c => eng.tsMatch q c.content)).length) := by
  constructor
  · intro hne
    unfold ftSearchTerms
    cases hter : (pySplit q).filter (fun t => 2 < t.length) with
    | nil => exact absurd hter hne
    | cons x xs =>
      have hx : x ∈ (pySplit q).filter (fun t => 2 < t.length) := by
        rw [hter]
        exact List.mem_cons_self _ _
      have hxlen : 2 < x.length := by
        have h2 := (List.mem_filter.mp hx).2
        simpa using h2
      have hxne : x ≠ "" := by
        intro hx0
        rw [hx0] at hxlen
        exact absurd hxlen (by decide)
      show (if " | ".intercalate (x :: xs) = "" then q else " | ".intercalate (x :: xs)) =
        " | ".intercalate (x :: xs)
      exact if_neg (intercalate_ne_empty " | " x xs hxne)
  · intro hshort
    have hfil : (pySplit q).filter (fun t => 2 < t.length) = [] := by
      apply List.filter_eq_nil.mpr
      intro a ha
      have := hshort a ha
      simp only [decide_eq_true_eq]
      omega
    have hterms : ftSearchTerms q = q := by
      unfold ftSearchTerms
      rw [hfil]
      rw [show String.intercalate " | " [] = "" from rfl]
      rw [if_pos rfl]
    refine ⟨hterms, ?_⟩
    show (s.chunks.filter (fun c =>
        eng.tsMatch (ftSearchTerms q) c.content && scopeCond none c &&
          applyFilters s {} c)).length =
      (s.chunks.filter (fun c => eng.tsMatch q c.content)).length
    congr 1
    apply List.filter_congr
    intro c _
    rw [hterms, scopeCond_none, applyFilters_default, Bool.and_true, Bool.and_true]

/-- A one-chunk store for the C7 witness. -/
def wStoreC7 : Store :=
  { documents := [{ id := "d1", title := "Doc One" }],
    chunks := [{ id := "c1", document_id := "d1", page_number := 1, chunk_index := 0,
                 content := "some stopword content" }] }

/-- Witness for C7: the query `"a an to"` consists only of discarded
short terms (each of length at most 2); the match expression falls back to the raw query and, with a
matching engine, the search returns a nonzero total. -/
theorem fulltext_match_expression_witness :
    (∀ t ∈ pySplit "a an to", t.length ≤ 2) ∧
    ftSearchTerms "a an to" = "a an to" ∧
    (fulltext_search wEngTrue wStoreC7 "a an to" 10 0 none {}).total = 1 := by
  have hshort : ∀ t ∈ pySplit "a an to", t.length ≤ 2 := by decide
  have h := (fulltext_match_expression wEngTrue wStoreC7 "a an to" 10 0).2 hshort
  refine ⟨hshort, h.1, ?_⟩
  rw [h.2]
  decide

/-- The chunk-shape property of C9: within budget, or a single word whose
own token count exceeds the budget. -/
def chunkOk (tok : String → Nat) (budget : Nat) (ch : PageChunkRec) : Prop :=
  ch.token_count ≤ budget ∨
    ∃ w, ch.words = [w] ∧ ch.token_count = tok w ∧ budget < tok w

/-- Loop invariant of the chunking accumulation. -/
def accInv (tok : String → Nat) (budget : Nat) (st : ChunkAcc) : Prop :=
  (st.buf = [] → st.count = 0) ∧
  (st.count ≤ budget ∨ ∃ w, st.buf = [w] ∧ st.count = tok w ∧ budget < tok w) ∧
  (∀ ch ∈ st.chunks, chunkOk tok budget ch)

theorem flushChunk_chunks_ok (tok : String → Nat) (budget startIdx : Nat) (st : ChunkAcc)
    (h1 : st.count ≤ budget ∨ ∃ w, st.buf = [w] ∧ st.count = tok w ∧ budget < tok w)
    (h2 : ∀ ch ∈ st.chunks, chunkOk tok budget ch) :
    ∀ ch ∈ (flushChunk startIdx st).chunks, chunkOk tok budget ch := by
  intro ch hch
  unfold flushChunk at hch
  rcases List.mem_append.mp hch with hch | hch
  · exact h2 ch hch
  · have hch' := List.mem_singleton.mp hch
    subst hch'
    rcases h1 with h1 | ⟨w, hw, hcnt, hover⟩
    · exact Or.inl h1
    · exact Or.inr ⟨w, hw, hcnt, hover⟩

theorem chunkStep_inv (tok : String → Nat) (budget startIdx : Nat) (st : ChunkAcc)
    (word : String) (h : accInv tok budget st) :
    accInv tok budget (chunkStep tok budget startIdx st word) := by
  obtain ⟨h0, h1, h2⟩ := h
  simp only [chunkStep]
  by_cases hc : budget < st.count + tok word
  · rw [if_pos hc]
    by_cases hb : st.buf.isEmpty
    · rw [if_pos hb]
      have hbe : st.buf = [] := List.isEmpty_iff.mp hb
      have hc0 : st.count = 0 := h0 hbe
      refine ⟨?_, ?_, h2⟩
      · intro habs
        simp at habs
      · rcases le_or_lt (tok word) budget with hle | hlt
        · exact Or.inl (by simp [hc0, hle])
        · exact Or.inr ⟨word, by simp [hbe], by simp [hc0], hlt⟩
    · rw [if_neg hb]
      refine ⟨?_, ?_, flushChunk_chunks_ok tok budget startIdx st h1 h2⟩
      · intro habs
        simp [flushChunk] at habs
      · rcases le_or_lt (tok word) budget with hle | hlt
        · exact Or.inl (by simp [flushChunk, hle])
        · exact Or.inr ⟨word, by simp [flushChunk], by simp [flushChunk], hlt⟩
  · rw [if_neg hc]
    refine ⟨?_, ?_, h2⟩
    · intro habs
      simp at habs
    · exact Or.inl (Nat.le_of_not_lt hc)

theorem foldl_chunkStep_inv (tok : String → Nat) (budget startIdx : Nat) :
    ∀ (words : List String) (st : ChunkAcc), accInv tok budget st →
      accInv tok budget (words.foldl (chunkStep tok budget startIdx) st) := by
  intro words
  induction words with
  | nil => intro st h; exact h
  | cons w ws ih =>
    intro st h
    exact ih _ (chunkStep_inv tok budget startIdx st w h)

/-- **C9.** Every chunk produced by the page chunking loop has
`token_count` at most the configured budget, except for a chunk that
consists of exactly the single word that triggered the flush when that
word's own token count already exceeds the budget. -/
theorem chunker_token_budget (tok : String → Nat) (budget startIdx : Nat)
    (words : List String) (ch : PageChunkRec)
    (hch : ch ∈ chunkPage tok budget startIdx words) :
    ch.token_count ≤ budget ∨
      ∃ w, ch.words = [w] ∧ ch.token_count = tok w ∧ budget < tok w := by
  have hinv : accInv tok budget (words.foldl (chunkStep tok budget startIdx) ⟨[], 0, []⟩) :=
    foldl_chunkStep_inv tok budget startIdx words ⟨[], 0, []⟩
      ⟨fun _ => rfl, Or.inl (Nat.zero_le _), fun ch h => absurd h (List.not_mem_nil ch)⟩
  unfold chunkPage at hch
  by_cases hb : (words.foldl (chunkStep tok budget startIdx) ⟨[], 0, []⟩).buf.isEmpty
  · rw [if_pos hb] at hch
    exact hinv.2.2 ch hch
  · rw [if_neg hb] at hch
    exact flushChunk_chunks_ok tok budget startIdx _ hinv.2.1 hinv.2.2 ch hch

/-- Witness for C9: budget 5, character-count tokenizer; the word
`"oversizedword"` (13 tokens) yields a single-word chunk over budget,
every other chunk is within budget. -/
theorem chunker_token_budget_witness :
    (({ content := "oversizedword", words := ["oversizedword"], token_count := 13,
        chunk_index := 1 } : PageChunkRec) ∈
      chunkPage String.length 5 0 ["aa", "bb", "oversizedword", "cc"]) ∧
    (({ content := "oversizedword", words := ["oversizedword"], token_count := 13,
        chunk_index := 1 } : PageChunkRec).token_count ≤ 5 ∨
      ∃ w, (({ content := "oversizedword", words := ["oversizedword"], token_count := 13,
               chunk_index := 1 } : PageChunkRec)).words = [w] ∧
        (({ content := "oversizedword", words := ["oversizedword"], token_count := 13,
            chunk_index := 1 } : PageChunkRec)).token_count = String.length w ∧
        5 < String.length w) :=
  ⟨by decide,
   chunker_token_budget String.length 5 0 ["aa", "bb", "oversizedword", "cc"] _ (by decide)⟩

/-! ## C6: entity importance normalization -/

theorem updateGroup_imp_ge (groups : List ((String × String) × EntityAcc))
    (key : String × String) (occ : OccurrenceRec)
    (h : ∀ g ∈ groups, 1 ≤ g.2.importance) :
    ∀ g ∈ updateGroup groups key occ, 1 ≤ g.2.importance := by
  intro g hg
  unfold updateGroup at hg
  obtain ⟨g', hg', hge⟩ := List.mem_map.mp hg
  by_cases hk : g'.1 = key
  · rw [if_pos hk] at hge
    subst hge
    exact Nat.le_succ_of_le (h g' hg')
  · rw [if_neg hk] at hge
    subst hge
    exact h g' hg'

theorem processMention_imp_ge (cid : String) (st : ExtractSt × List String) (m : Mention)
    (h : ∀ g ∈ st.1.groups, 1 ≤ g.2.importance) :
    ∀ g ∈ (processMention cid st m).1.groups, 1 ≤ g.2.importance := by
  intro g hg
  unfold processMention at hg
  cases hl : lookupGroup st.1.groups (pyLower m.text, m.label) with
  | some acc =>
    simp only [hl] at hg
    exact updateGroup_imp_ge st.1.groups _ _ h g hg
  | none =>
    simp only [hl] at hg
    rcases List.mem_append.mp hg with hg | hg
    · exact h g hg
    · have := List.mem_singleton.mp hg
      subst this
      exact Nat.le_refl 1

theorem foldl_processMention_imp_ge (cid : String) (ms : List Mention) :
    ∀ (st : ExtractSt × List String), (∀ g ∈ st.1.groups, 1 ≤ g.2.importance) →
      ∀ g ∈ (ms.foldl (processMention cid) st).1.groups, 1 ≤ g.2.importance := by
  induction ms with
  | nil => intro st h; exact h
  | cons m ms ih =>
    intro st h
    exact ih _ (processMention_imp_ge cid st m h)

theorem processChunk_imp_ge (ner : NER) (st : ExtractSt) (c : EChunk)
    (h : ∀ g ∈ st.groups, 1 ≤ g.2.importance) :
    ∀ g ∈ (processChunk ner st c).groups, 1 ≤ g.2.importance := by
  unfold processChunk
  by_cases hct : c.content_type ≠ "text"
  · rw [if_pos hct]
    exact h
  · rw [if_neg hct]
    exact foldl_processMention_imp_ge c.id (ner c.content) (st, []) h

theorem processChunks_imp_ge (ner : NER) :
    ∀ (chunks : List EChunk) (st : ExtractSt), (∀ g ∈ st.groups, 1 ≤ g.2.importance) →
      ∀ g ∈ (processChunks ner st chunks).groups, 1 ≤ g.2.importance := by
  intro chunks
  induction chunks with
  | nil => intro st h; exact h
  | cons c cs ih =>
    intro st h
    exact ih _ (processChunk_imp_ge ner st c h)

/-- **C6.** For every document whose extraction yields at least one
entity, every finalized entity importance is the raw mention count
divided by the document-wide maximum mention count, hence lies in
`[0, 1]`, and at least one entity has importance exactly 1. -/
theorem entity_importance_normalized (ner : NER) (chunks : List EChunk)
    (hne : (extract_entities ner chunks).1 ≠ []) :
    (∀ e ∈ (extract_entities ner chunks).1, 0 ≤ e.importance ∧ e.importance ≤ 1) ∧
    ∃ e ∈ (extract_entities ner chunks).1, e.importance = 1 := by
  have hge : ∀ g ∈ (processChunks ner ⟨[], [], 0⟩ chunks).groups, 1 ≤ g.2.importance :=
    processChunks_imp_ge ner chunks ⟨[], [], 0⟩
      (fun g hg => absurd hg (List.not_mem_nil g))
  have hgeRaw : ∀ a ∈ rawEntitiesOf ner chunks, 1 ≤ a.importance := by
    intro a ha
    obtain ⟨g, hg, hga⟩ := List.mem_map.mp ha
    rw [← hga]
    exact hge g hg
  have h1 : (extract_entities ner chunks).1 =
      (rawEntitiesOf ner chunks).map (finalizeEntity (maxImportanceOf (rawEntitiesOf ner chunks))) := rfl
  have hrawne : rawEntitiesOf ner chunks ≠ [] := by
    intro hraw
    rw [h1, hraw] at hne
    exact hne rfl
  have hMdef : maxImportanceOf (rawEntitiesOf ner chunks) =
      natMax ((rawEntitiesOf ner chunks).map (fun e => e.importance)) := by
    unfold maxImportanceOf
    rw [if_neg (by simp [List.isEmpty_iff, hrawne])]
  set M := maxImportanceOf (rawEntitiesOf ner chunks) with hMset
  have hmapne : (rawEntitiesOf ner chunks).map (fun e => e.importance) ≠ [] := by
    intro hmn
    exact hrawne (List.map_eq_nil.mp hmn)
  have hMmem : M ∈ (rawEntitiesOf ner chunks).map (fun e => e.importance) := by
    rw [hMdef]
    exact natMax_mem _ hmapne
  have hM1 : 1 ≤ M := by
    obtain ⟨a, ha, haM⟩ := List.mem_map.mp hMmem
    rw [← haM]
    exact hgeRaw a ha
  have hMpos : (0 : ℚ) < (M : ℚ) := by
    exact_mod_cast Nat.lt_of_lt_of_le Nat.zero_lt_one hM1
  constructor
  · intro e he
    rw [h1] at he
    obtain ⟨a, ha, hae⟩ := List.mem_map.mp he
    have himp : e.importance = (a.importance : ℚ) / (M : ℚ) := by
      rw [← hae]
      unfold finalizeEntity
      rw [if_pos (Nat.lt_of_lt_of_le Nat.zero_lt_one hM1)]
    rw [himp]
    constructor
    · exact div_nonneg (by exact_mod_cast Nat.zero_le _) (le_of_lt hMpos)
    · rw [div_le_one hMpos]
      have : a.importance ≤ M := by
        rw [hMdef]
        exact le_natMax_of_mem _ _ (List.mem_map.mpr ⟨a, ha, rfl⟩)
      exact_mod_cast this
  · obtain ⟨a, ha, haM⟩ := List.mem_map.mp hMmem
    refine ⟨finalizeEntity M a, ?_, ?_⟩
    · rw [h1]
      exact List.mem_map.mpr ⟨a, ha, rfl⟩
    · show (if 0 < M then (a.importance : ℚ) / (M : ℚ) else 0) = 1
      rw [if_pos (Nat.lt_of_lt_of_le Nat.zero_lt_one hM1), haM]
      exact div_self (ne_of_gt hMpos)

/-- A tiny NER oracle for the C6 witness: two mentions of one entity and
one of another. -/
def wNerC6 : NER := fun _ =>
  [⟨"Alpha", "ORG", 0, 5⟩, ⟨"Beta", "ORG", 10, 14⟩, ⟨"Alpha", "ORG", 20, 25⟩]

/-- The chunk list fed to the extractor for the C6 witness. -/
def wChunksC6 : List EChunk :=
  [{ id := "c1", content := "Alpha and Beta and Alpha", content_type := "text" }]

/-- Witness for C6: the concrete extraction yields a non-empty entity
list, all importances in `[0, 1]`, and one importance exactly 1. -/
theorem entity_importance_normalized_witness :
    (extract_entities wNerC6 wChunksC6).1 ≠ [] ∧
    ((∀ e ∈ (extract_entities wNerC6 wChunksC6).1, 0 ≤ e.importance ∧ e.importance ≤ 1) ∧
      ∃ e ∈ (extract_entities wNerC6 wChunksC6).1, e.importance = 1) :=
  ⟨by decide, entity_importance_normalized wNerC6 wChunksC6 (by decide)⟩

/-! ## C2: co-occurrence relationship records -/

theorem pairsOf_length {α : Type} : ∀ (l : List α), (pairsOf l).length = Nat.choose l.length 2 := by
  intro l
  induction l with
  | nil => rfl
  | cons x xs ih =>
    simp only [pairsOf, List.length_append, List.length_map, ih, List.length_cons]
    rw [Nat.choose_succ_succ xs.length 1, Nat.choose_one_right]

theorem mkRels_length (cid : String) (fresh : Nat) (ids : List String) :
    (mkRels cid fresh ids).length = Nat.choose ids.length 2 := by
  unfold mkRels
  by_cases h : 1 < ids.length
  · rw [if_pos h, List.length_map, List.enum_length, pairsOf_length]
  · rw [if_neg h]
    have hlt : ids.length < 2 := by omega
    rw [Nat.choose_eq_zero_of_lt hlt]
    rfl

theorem mkRels_mem (cid : String) (fresh : Nat) (ids : List String) :
    ∀ r ∈ mkRels cid fresh ids,
      r.type = "co-occurrence" ∧ r.confidence = 1/2 ∧ r.chunk_ids = [cid] := by
  intro r hr
  unfold mkRels at hr
  by_cases h : 1 < ids.length
  · rw [if_pos h] at hr
    obtain ⟨p, _, hpr⟩ := List.mem_map.mp hr
    rw [← hpr]
    exact ⟨rfl, rfl, rfl⟩
  · rw [if_neg h] at hr
    cases hr

theorem processMention_snd_length (cid : String) (st : ExtractSt × List String) (m : Mention) :
    (processMention cid st m).2.length = st.2.length + 1 := by
  unfold processMention
  cases hl : lookupGroup st.1.groups (pyLower m.text, m.label) with
  | some acc =>
    simp only [hl]
    rw [List.length_append]
    rfl
  | none =>
    simp only [hl]
    rw [List.length_append]
    rfl

theorem foldl_processMention_snd_length (cid : String) :
    ∀ (ms : List Mention) (st : ExtractSt × List String),
      (ms.foldl (processMention cid) st).2.length = st.2.length + ms.length := by
  intro ms
  induction ms with
  | nil => intro st; rfl
  | cons m ms ih =>
    intro st
    rw [List.foldl_cons, ih, processMention_snd_length, List.length_cons]
    omega

theorem processMention_rels (cid : String) (st : ExtractSt × List String) (m : Mention) :
    (processMention cid st m).1.rels = st.1.rels := by
  unfold processMention
  cases hl : lookupGroup st.1.groups (pyLower m.text, m.label) with
  | some acc => simp only [hl]
  | none => simp only [hl]

theorem foldl_processMention_rels (cid : String) :
    ∀ (ms : List Mention) (st : ExtractSt × List String),
      (ms.foldl (processMention cid) st).1.rels = st.1.rels := by
  intro ms
  induction ms with
  | nil => intro st; rfl
  | cons m ms ih =>
    intro st
    rw [List.foldl_cons, ih, processMention_rels]

theorem processChunk_rels (ner : NER) (st : ExtractSt) (c : EChunk) :
    ∃ block, (processChunk ner st c).rels = st.rels ++ block ∧
      block.length =
        (if c.content_type = "text" then Nat.choose (ner c.content).length 2 else 0) ∧
      ∀ r ∈ block, r.type = "co-occurrence" ∧ r.confidence = 1/2 ∧ r.chunk_ids = [c.id] := by
  unfold processChunk
  by_cases hct : c.content_type ≠ "text"
  · rw [if_pos hct]
    refine ⟨[], by rw [List.append_nil], ?_, fun r hr => absurd hr (List.not_mem_nil r)⟩
    rw [if_neg hct]
    rfl
  · rw [if_neg hct]
    push_neg at hct
    refine ⟨mkRels c.id ((ner c.content).foldl (processMention c.id) (st, [])).1.fresh
        ((ner c.content).foldl (processMention c.id) (st, [])).2, ?_, ?_, mkRels_mem _ _ _⟩
    · simp only [foldl_processMention_rels]
    · rw [if_pos hct, mkRels_length, foldl_processMention_snd_length]
      simp

theorem processChunks_rels (ner : NER) :
    ∀ (cs : List EChunk) (st : ExtractSt),
      ∃ new, (processChunks ner st cs).rels = st.rels ++ new ∧
        ∀ r ∈ new, (r.type = "co-occurrence" ∧ r.confidence = 1/2) ∧
          ∃ x ∈ cs, r.chunk_ids = [x.id] := by
  intro cs
  induction cs with
  | nil =>
    intro st
    exact ⟨[], by rw [List.append_nil]; rfl, fun r hr => absurd hr (List.not_mem_nil r)⟩
  | cons c cs ih =>
    intro st
    obtain ⟨b, hb, hbprops⟩ := processChunk_rels ner st c
    obtain ⟨new, hnew, hnewprops⟩ := ih (processChunk ner st c)
    refine ⟨b ++ new, ?_, ?_⟩
    · show (processChunks ner (processChunk ner st c) cs).rels = st.rels ++ (b ++ new)
      rw [hnew, hb, List.append_assoc]
    · intro r hr
      rcases List.mem_append.mp hr with hr | hr
      · have hp := hbprops.2 r hr
        exact ⟨⟨hp.1, hp.2.1⟩, c, List.mem_cons_self _ _, hp.2.2⟩
      · obtain ⟨hp, x, hx, hchids⟩ := hnewprops r hr
        exact ⟨hp, x, List.mem_cons_of_mem _ hx, hchids⟩

theorem processChunks_append_eq (ner : NER) :
    ∀ (l1 l2 : List EChunk) (st : ExtractSt),
      processChunks ner st (l1 ++ l2) = processChunks ner (processChunks ner st l1) l2 := by
  intro l1
  induction l1 with
  | nil => intro l2 st; rfl
  | cons c cs ih => intro l2 st; exact ih l2 (processChunk ner st c)

/-- **C2 (amended).** For every chunk of content type `"text"` (with
pairwise-distinct chunk ids), `extract_entities` creates exactly
`C(m, 2)` co-occurrence records whose provenance is that chunk, where `m`
is the number of NER *mentions* detected in the chunk (not the number of
distinct entities: repeated mentions of one entity contribute self-pairs
and duplicate pairs); each such record has type `"co-occurrence"` and
confidence 0.5.  When every distinct entity of the chunk is mentioned
exactly once, `m` coincides with the number of distinct entities. -/
theorem cooccurrence_pairs_per_chunk (ner : NER) (chunks : List EChunk) (c : EChunk)
    (hnd : (chunks.map (fun x => x.id)).Nodup) (hc : c ∈ chunks)
    (htext : c.content_type = "text") :
    ((extract_entities ner chunks).2.filter
        (fun r => decide (r.chunk_ids = [c.id]))).length =
      Nat.choose (ner c.content).length 2 ∧
    ∀ r ∈ (extract_entities ner chunks).2.filter (fun r => decide (r.chunk_ids = [c.id])),
      r.type = "co-occurrence" ∧ r.confidence = 1/2 := by
  obtain ⟨pre, post, hsplit⟩ := List.append_of_mem hc
  subst hsplit
  have hpostne : ∀ x ∈ post, x.id ≠ c.id := by
    intro x hx
    have hmap : (pre.map (fun y => y.id) ++
        c.id :: post.map (fun y => y.id)).Nodup := by
      simpa using hnd
    have hcons := (List.nodup_append.mp hmap).2.1
    have hnotmem := (List.nodup_cons.mp hcons).1
    intro hxe
    exact hnotmem (List.mem_map.mpr ⟨x, hx, hxe⟩)
  have hprene : ∀ x ∈ pre, x.id ≠ c.id := by
    intro x hx
    have hmap : (pre.map (fun y => y.id) ++
        c.id :: post.map (fun y => y.id)).Nodup := by
      simpa using hnd
    have hdisj := (List.nodup_append.mp hmap).2.2
    intro hxe
    exact hdisj (List.mem_map.mpr ⟨x, hx, hxe⟩) (hxe ▸ List.mem_cons_self _ _)
  have h2 : (extract_entities ner (pre ++ c :: post)).2 =
      (processChunks ner ⟨[], [], 0⟩ (pre ++ c :: post)).rels := rfl
  obtain ⟨preNew, hpre, hpreProps⟩ := processChunks_rels ner pre ⟨[], [], 0⟩
  obtain ⟨cBlock, hcB, hcBlen, hcBprops⟩ :=
    processChunk_rels ner (processChunks ner ⟨[], [], 0⟩ pre) c
  obtain ⟨postNew, hpost, hpostProps⟩ :=
    processChunks_rels ner post (processChunk ner (processChunks ner ⟨[], [], 0⟩ pre) c)
  have hdecomp : (processChunks ner ⟨[], [], 0⟩ (pre ++ c :: post)).rels =
      preNew ++ cBlock ++ postNew := by
    rw [processChunks_append_eq]
    show (processChunks ner
      (processChunk ner (processChunks ner ⟨[], [], 0⟩ pre) c) post).rels = _
    rw [hpost, hcB, hpre]
    simp [List.append_assoc]
  have hfilPre : preNew.filter (fun r => decide (r.chunk_ids = [c.id])) = [] := by
    apply List.filter_eq_nil.mpr
    intro r hr
    obtain ⟨_, x, hx, hchids⟩ := hpreProps r hr
    simp only [decide_eq_true_eq]
    rw [hchids]
    intro hcontra
    injection hcontra with h1 _
    exact hprene x hx h1
  have hfilPost : postNew.filter (fun r => decide (r.chunk_ids = [c.id])) = [] := by
    apply List.filter_eq_nil.mpr
    intro r hr
    obtain ⟨_, x, hx, hchids⟩ := hpostProps r hr
    simp only [decide_eq_true_eq]
    rw [hchids]
    intro hcontra
    injection hcontra with h1 _
    exact hpostne x hx h1
  have hfilBlock : cBlock.filter (fun r => decide (r.chunk_ids = [c.id])) = cBlock := by
    apply List.filter_eq_self.mpr
    intro r hr
    simp only [decide_eq_true_eq]
    exact (hcBprops r hr).2.2
  rw [h2, hdecomp, List.filter_append, List.filter_append, hfilPre, hfilPost, hfilBlock,
    List.nil_append, List.append_nil]
  constructor
  · rw [hcBlen, if_pos htext]
  · intro r hr
    exact ⟨(hcBprops r hr).1, (hcBprops r hr).2.1⟩

/-- Counterexample to C2 as stated: a chunk in which extraction detects
exactly 2 distinct entities (entity `alpha` mentioned twice, `beta`
once) receives 3 co-occurrence records — one per mention pair, including
a self-pair — not `C(2,2) = 1`. -/
theorem cooccurrence_pairs_counterexample :
    (extract_entities wNerC6 wChunksC6).1.length = 2 ∧
    ((extract_entities wNerC6 wChunksC6).2.filter
        (fun r => decide (r.chunk_ids = ["c1"]))).length = 3 ∧
    ¬ ((extract_entities wNerC6 wChunksC6).2.filter
        (fun r => decide (r.chunk_ids = ["c1"]))).length =
      Nat.choose (extract_entities wNerC6 wChunksC6).1.length 2 ∧
    ∃ r ∈ (extract_entities wNerC6 wChunksC6).2,
      r.source_entity_id = r.target_entity_id := by
  refine ⟨by decide, by decide, by decide, ?_⟩
  decide

/-- Witness for the amended C2: the same concrete input instantiates the
per-mention-pair count `C(3,2) = 3` with all records typed, weighted and
attributed as described. -/
theorem cooccurrence_pairs_per_chunk_witness :
    (wChunksC6.map (fun x => x.id)).Nodup ∧
    (({ id := "c1", content := "Alpha and Beta and Alpha",
        content_type := "text" } : EChunk) ∈ wChunksC6) ∧
    (((extract_entities wNerC6 wChunksC6).2.filter
        (fun r => decide (r.chunk_ids = ["c1"]))).length =
      Nat.choose (wNerC6 "Alpha and Beta and Alpha").length 2 ∧
     ∀ r ∈ (extract_entities wNerC6 wChunksC6).2.filter
        (fun r => decide (r.chunk_ids = ["c1"])),
       r.type = "co-occurrence" ∧ r.confidence = 1/2) :=
  ⟨by decide, by decide,
   cooccurrence_pairs_per_chunk wNerC6 wChunksC6
     { id := "c1", content := "Alpha and Beta and Alpha", content_type := "text" }
     (by decide) (by decide) rfl⟩

/-! ## C5: document_chat combined score and ranking -/

theorem dcScored_score (eng : Engine) (s : Store) (qe : List ℚ) (query : String)
    (docIdStr : String) (w : DcWeights) :
    ∀ r ∈ dcScored eng s qe query docIdStr w,
      r.score = dcCombined w r.semantic_similarity r.importance r.entity_relevance
        r.relationship_relevance r.structural_relevance := by
  intro r hr
  unfold dcScored at hr
  obtain ⟨c, _, hcr⟩ := List.mem_map.mp hr
  rw [← hcr]

theorem dcBody_ok_of_steps (eng : Engine) (embedder : Embedder) (s : Store) (query : String)
    (docId : String) (limit : Nat) (w : DcWeights) (doc : Doc) (emb : PyEmb) (qe : List ℚ)
    (htr : PyDocId.truthy (.str docId) = true)
    (hfind : s.documents.find? (fun d => (PyDocId.str docId).eqId d.id) = some doc)
    (hemb : embedder query = Except.ok emb)
    (hval : validateEmb emb = Except.ok qe) :
    document_chat_search eng embedder s query (.str docId) limit w =
      { results := ((sortByDesc (fun r => r.score)
            (dcScored eng s qe query doc.id w)).take limit).map (dcAttachInfo doc),
        total := (dcScored eng s qe query doc.id w).length,
        query := query, limit := limit, search_type := "document_chat", error := none } := by
  unfold document_chat_search dcBody
  rw [if_neg (by simp [htr])]
  simp only [hfind, hemb, hval]

/-- **C5.** For every successful document_chat search with the default
weights, each returned record's combined score equals
`semantic*(1 − iw − ew − sw − rw) + importance*iw +
(entity + relationship)*ew/2 + structural*sw` with iw = 0.3, ew = 0.3,
sw = 0.2 and rw = 0.2 (the recency weight multiplies no signal — it only
shrinks the semantic base weight), and the returned results are exactly
the scored candidate chunks sorted by descending combined score and
truncated to `limit` (with the document metadata attached). -/
theorem document_chat_scoring (eng : Engine) (embedder : Embedder) (s : Store)
    (query docId : String) (limit : Nat) (doc : Doc) (emb : PyEmb) (qe : List ℚ)
    (hne : docId ≠ "")
    (hfind : s.documents.find? (fun d => (PyDocId.str docId).eqId d.id) = some doc)
    (hemb : embedder query = Except.ok emb)
    (hval : validateEmb emb = Except.ok qe) :
    ((document_chat_search eng embedder s query (.str docId) limit {}).error = none) ∧
    (∀ r ∈ (document_chat_search eng embedder s query (.str docId) limit {}).results,
      r.score = r.semantic_similarity * (1 - 3/10 - 3/10 - 1/5 - 1/5) +
        r.importance * (3/10) +
        (r.entity_relevance + r.relationship_relevance) * (3/10) / 2 +
        r.structural_relevance * (1/5)) ∧
    List.Pairwise (fun a b => b.score ≤ a.score)
      (document_chat_search eng embedder s query (.str docId) limit {}).results ∧
    (∃ l, List.Perm l (dcScored eng s qe query doc.id {}) ∧
      List.Pairwise (fun a b => b.score ≤ a.score) l ∧
      (document_chat_search eng embedder s query (.str docId) limit {}).results =
        (l.take limit).map (dcAttachInfo doc)) ∧
    (document_chat_search eng embedder s query (.str docId) limit {}).total =
      (dcScored eng s qe query doc.id {}).length := by
  have htr : PyDocId.truthy (.str docId) = true := by
    simp [PyDocId.truthy, hne]
  have hout := dcBody_ok_of_steps eng embedder s query docId limit {} doc emb qe
    htr hfind hemb hval
  rw [hout]
  refine ⟨rfl, ?_, ?_, ?_, rfl⟩
  · intro r hr
    obtain ⟨r0, hr0take, hr0⟩ := List.mem_map.mp hr
    have hr0mem : r0 ∈ sortByDesc (fun x : DcResult => x.score)
        (dcScored eng s qe query doc.id {}) :=
      (List.take_sublist limit _).subset hr0take
    have hr0mem2 : r0 ∈ dcScored eng s qe query doc.id {} :=
      (mem_sortByDesc _ _ _).mp hr0mem
    have hsc := dcScored_score eng s qe query doc.id {} r0 hr0mem2
    rw [← hr0]
    exact hsc
  · have hsorted := sortByDesc_sorted (fun x : DcResult => x.score)
      (dcScored eng s qe query doc.id {})
    have htake := List.Pairwise.sublist (List.take_sublist limit _) hsorted
    exact List.pairwise_map.mpr (htake.imp (fun h => h))
  · exact ⟨sortByDesc (fun x : DcResult => x.score) (dcScored eng s qe query doc.id {}),
      sortByDesc_perm _ _, sortByDesc_sorted _ _, rfl⟩

/-- Witness for C5: a concrete successful document_chat run over the
two-document store. -/
theorem document_chat_scoring_witness :
    ("d1" : String) ≠ "" ∧
    wStoreTwoDocs.documents.find? (fun d => (PyDocId.str "d1").eqId d.id) =
      some { id := "d1", title := "Doc One" } ∧
    wZeroEmbedder "what does alpha do" =
      Except.ok (PyEmb.flat (List.replicate 768 0)) ∧
    (((document_chat_search wEngTrue wZeroEmbedder wStoreTwoDocs "what does alpha do"
        (.str "d1") 15 {}).error = none) ∧
     (∀ r ∈ (document_chat_search wEngTrue wZeroEmbedder wStoreTwoDocs "what does alpha do"
        (.str "d1") 15 {}).results,
       r.score = r.semantic_similarity * (1 - 3/10 - 3/10 - 1/5 - 1/5) +
         r.importance * (3/10) +
         (r.entity_relevance + r.relationship_relevance) * (3/10) / 2 +
         r.structural_relevance * (1/5)) ∧
     List.Pairwise (fun a b => b.score ≤ a.score)
       (document_chat_search wEngTrue wZeroEmbedder wStoreTwoDocs "what does alpha do"
         (.str "d1") 15 {}).results ∧
     (∃ l, List.Perm l (dcScored wEngTrue wStoreTwoDocs (List.replicate 768 0)
          "what does alpha do" ({ id := "d1", title := "Doc One" } : Doc).id {}) ∧
       List.Pairwise (fun a b => b.score ≤ a.score) l ∧
       (document_chat_search wEngTrue wZeroEmbedder wStoreTwoDocs "what does alpha do"
          (.str "d1") 15 {}).results =
         (l.take 15).map (dcAttachInfo { id := "d1", title := "Doc One" })) ∧
     (document_chat_search wEngTrue wZeroEmbedder wStoreTwoDocs "what does alpha do"
        (.str "d1") 15 {}).total =
       (dcScored wEngTrue wStoreTwoDocs (List.replicate 768 0) "what does alpha do"
         ({ id := "d1", title := "Doc One" } : Doc).id {}).length) :=
  ⟨by decide, rfl, rfl,
   document_chat_scoring wEngTrue wZeroEmbedder wStoreTwoDocs "what does alpha do" "d1" 15
     { id := "d1", title := "Doc One" } (PyEmb.flat (List.replicate 768 0))
     (List.replicate 768 0) (by decide) rfl rfl validateEmb_zero768⟩

/-! ## C1, C4, C8: evaluations exhibiting code defects -/

/-- A successful hybrid search is the sorted, paginated scoring of ALL
chunks. -/
theorem hybrid_search_eq_of_steps (eng : Engine) (embedder : Embedder) (s : Store)
    (query : String) (limit offset : Nat) (docId : Option String) (vw tw : ℚ)
    (filters : Filters) (emb : PyEmb) (qe : List ℚ)
    (hb : pyBlank query = false) (hemb : embedder query = Except.ok emb)
    (hv : validateEmb emb = Except.ok qe) :
    hybrid_search eng embedder s query limit offset docId vw tw filters =
      { results := ((sortByDesc (fun r => r.score)
            (hyScored eng s qe (ftSearchTerms query) vw tw)).drop offset).take limit,
        total := s.chunks.length, query := query, limit := limit, offset := offset,
        search_type := "hybrid", error := none } := by
  unfold hybrid_search hybridBody
  rw [if_neg (by simp [hb])]
  simp only [hemb, hv]

/-- **C1 (code evaluation).** `hybrid_search` ignores its document scope
and filter arguments entirely: its output is literally invariant under
changing them, and on a two-document store a search scoped to `d1`
returns a chunk of `d2` (with `total` counting all chunks). -/
theorem hybrid_ignores_scope_and_filters :
    (∀ (eng : Engine) (embedder : Embedder) (s : Store) (q : String)
        (limit offset : Nat) (d1 d2 : Option String) (vw tw : ℚ) (f1 f2 : Filters),
      hybrid_search eng embedder s q limit offset d1 vw tw f1 =
        hybrid_search eng embedder s q limit offset d2 vw tw f2) ∧
    (hybrid_search wEngTrue wZeroEmbedder wStoreTwoDocs "alpha" 10 0 (some "d1")
        (13/20) (7/20) {}).error = none ∧
    (hybrid_search wEngTrue wZeroEmbedder wStoreTwoDocs "alpha" 10 0 (some "d1")
        (13/20) (7/20) {}).total = 2 ∧
    (∃ r ∈ (hybrid_search wEngTrue wZeroEmbedder wStoreTwoDocs "alpha" 10 0 (some "d1")
        (13/20) (7/20) {}).results, r.document_id = "d2") := by
  have hout := hybrid_search_eq_of_steps wEngTrue wZeroEmbedder wStoreTwoDocs "alpha"
    10 0 (some "d1") (13/20) (7/20) {} (PyEmb.flat (List.replicate 768 0))
    (List.replicate 768 0) (by decide) rfl validateEmb_zero768
  refine ⟨fun eng embedder s q limit offset d1 d2 vw tw f1 f2 => rfl, ?_, ?_, ?_⟩
  · rw [hout]
  · rw [hout]
    rfl
  · rw [hout]
    show ∃ r ∈ ((sortByDesc (fun r : HyResult => r.score)
        (hyScored wEngTrue wStoreTwoDocs (List.replicate 768 0)
          (ftSearchTerms "alpha") (13/20) (7/20))).drop 0).take 10,
      r.document_id = "d2"
    rw [List.drop_zero]
    have hlen2 : (sortByDesc (fun r : HyResult => r.score)
        (hyScored wEngTrue wStoreTwoDocs (List.replicate 768 0)
          (ftSearchTerms "alpha") (13/20) (7/20))).length = 2 := by
      rw [(sortByDesc_perm _ _).length_eq]
      rfl
    rw [List.take_of_length_le (by rw [hlen2]; omega)]
    have hx : ∃ r ∈ hyScored wEngTrue wStoreTwoDocs (List.replicate 768 0)
        (ftSearchTerms "alpha") (13/20) (7/20), r.document_id = "d2" := by
      unfold hyScored
      exact ⟨_, List.mem_map.mpr
        ⟨_, List.mem_cons_of_mem _ (List.mem_cons_self _ _), rfl⟩, rfl⟩
    obtain ⟨r, hrL, hrid⟩ := hx
    exact ⟨r, (mem_sortByDesc _ _ _).mpr hrL, hrid⟩

/-- Store for C4: one document with a chunk, a page, an entity and a
relationship, all referencing `d1`. -/
def wStoreC4 : Store :=
  { documents := [{ id := "d1", title := "Doc One" }],
    pages := [{ document_id := "d1", page_number := 1, has_table := false }],
    chunks := [{ id := "c1", document_id := "d1", page_number := 1, chunk_index := 0,
                 content := "Alice works here" }],
    entities := [{ id := "e1", document_id := "d1", type := "PER", name := "Alice",
                   normalized_name := "alice" }],
    relationships := [{ id := "r1", document_id := "d1", source_entity_id := "e1",
                        target_entity_id := "e1", type := "co-occurrence",
                        confidence := 1/2 }] }

/-- **C4 (code evaluation).** Deleting document `d1` succeeds and removes
the document, its chunks and its pages — but the entity and relationship
rows referencing `d1` remain in the store: the delete endpoint never
touches `document_entities` or `document_relationships`. -/
theorem delete_document_leaves_entities :
    (delete_document wStoreC4 "d1").1 = DeleteOutcome.success ∧
    (delete_document wStoreC4 "d1").2.documents = [] ∧
    (delete_document wStoreC4 "d1").2.chunks = [] ∧
    (delete_document wStoreC4 "d1").2.pages = [] ∧
    (∃ e ∈ (delete_document wStoreC4 "d1").2.entities, e.document_id = "d1") ∧
    (∃ r ∈ (delete_document wStoreC4 "d1").2.relationships, r.document_id = "d1") := by
  refine ⟨rfl, by decide, ?_, by decide, ?_, ?_⟩
  · show (wStoreC4.chunks.filter (fun c => c.document_id ≠ "d1")) = []
    decide
  · exact ⟨{ id := "e1", document_id := "d1", type := "PER", name := "Alice",
             normalized_name := "alice" }, List.mem_cons_self _ _, rfl⟩
  · exact ⟨{ id := "r1", document_id := "d1", source_entity_id := "e1",
             target_entity_id := "e1", type := "co-occurrence", confidence := 1/2 },
           List.mem_cons_self _ _, rfl⟩

/-- **C8 (code evaluation).** api.py normalizes the document-chat scope
to a LIST and passes it to `document_chat_search`, whose document lookup
only unwraps a string id; a list-valued id matches no stored document, so
a document-chat search scoped to the existing document list `["d1"]`
returns the error envelope instead of results, and the `/query` endpoint
turns it into HTTP 500. -/
theorem document_chat_list_scope_fails :
    (∃ d ∈ wStoreTwoDocs.documents, d.id = "d1") ∧
    (document_chat_search wEngTrue wZeroEmbedder wStoreTwoDocs "hello"
        (PyDocId.list ["d1"]) 15 {}).results = [] ∧
    (document_chat_search wEngTrue wZeroEmbedder wStoreTwoDocs "hello"
        (PyDocId.list ["d1"]) 15 {}).total = 0 ∧
    (document_chat_search wEngTrue wZeroEmbedder wStoreTwoDocs "hello"
        (PyDocId.list ["d1"]) 15 {}).error.isSome = true ∧
    (∃ detail, query_document_chat wEngTrue wZeroEmbedder wStoreTwoDocs "hello"
        (some (PyDocId.list ["d1"])) = QueryOutcome.httpError 500 detail) :=
  ⟨⟨{ id := "d1", title := "Doc One" }, List.mem_cons_self _ _, rfl⟩,
   rfl, rfl, rfl, ⟨"Search failed", rfl⟩⟩

end PdVerse
